import Mathlib

/-!
Verification of the Kindle newsletter formatter sources against their
natural-language specification.

The development shallowly embeds the three source files:
  * `utils/mail-drop-handler.js` — drop/IPC payload sanitization and the
    `process-dropped-files` IPC handler;
  * `utils/eml-parser.js` — the `.eml` parsing wrapper `parseEmlFile`;
  * `renderer.js` — the UI controller state machine (state variables,
    event handlers, progress animation, clear action).

JavaScript dynamic values are modelled by the inductive type `JSVal`;
JavaScript numbers that only ever hold small decimal constants
(the progress animation) are modelled as exact rationals; the filesystem
(`fs.existsSync`, `fs.readFileSync`) and the external `mailparser` and
`newsletter-detector` collaborators are oracles passed in as parameters.
Fallible operations return `Except`; an uncaught JavaScript `throw` is an
explicit constructor of the result type.
-/

/-! ## JavaScript value model -/

/-- A JavaScript runtime value, as far as the sanitizer code inspects one:
`null`, `undefined`, numbers, booleans, strings, arrays and plain objects
(own enumerable properties in insertion order). -/
inductive JSVal where
  | null
  | undefined
  | num (n : Int)
  | bool (b : Bool)
  | str (s : String)
  | arr (elems : List JSVal)
  | obj (fields : List (String × JSVal))

/-- JavaScript `String.prototype.trim()`: strip leading and trailing
whitespace. Defined structurally on the character list so that it evaluates
inside the kernel. -/
def jsTrim (s : String) : String :=
  ⟨((s.data.dropWhile Char.isWhitespace).reverse.dropWhile
      Char.isWhitespace).reverse⟩

/-- JavaScript truthiness (`if (v)`). Arrays and objects are always truthy;
`""`, `0`, `false`, `null` and `undefined` are falsy. -/
def truthy : JSVal → Bool
  | .null => false
  | .undefined => false
  | .num n => n != 0
  | .bool b => b
  | .str s => s != ""
  | .arr _ => true
  | .obj _ => true

/-- JavaScript `typeof v`. -/
def typeof : JSVal → String
  | .null => "object"
  | .undefined => "undefined"
  | .num _ => "number"
  | .bool _ => "boolean"
  | .str _ => "string"
  | .arr _ => "object"
  | .obj _ => "object"

/-- `Array.isArray(v)`. -/
def isArray : JSVal → Bool
  | .arr _ => true
  | _ => false

/-- Property read `v[key]` on the shapes the handler probes: an own
property of a plain object, `undefined` everywhere else. -/
def getField (v : JSVal) (key : String) : JSVal :=
  match v with
  | .obj fields => (fields.lookup key).getD .undefined
  | _ => .undefined

/-- `Object.values(v)` for a plain object (the only shape the code applies
it to, arrays having been caught by an earlier branch). -/
def objectValues : JSVal → List JSVal
  | .obj fields => fields.map Prod.snd
  | _ => []

/-- The elements of an array value (empty for non-arrays). -/
def arrElems : JSVal → List JSVal
  | .arr xs => xs
  | _ => []

/-- The underlying string of a string value. -/
def strOf : JSVal → String
  | .str s => s
  | _ => ""

/-- The predicate `p => typeof p === 'string' && p.trim() !== ''` used to
keep the string-valued entries of an arbitrary object. -/
def isNonEmptyStr : JSVal → Bool
  | .str s => jsTrim s != ""
  | _ => false

/-! ## `mail-drop-handler.js`: `handleMailDrop` -/

/-- First (sanitization) stage of `MailDropHandler.handleMailDrop`
(mail-drop-handler.js lines 27–45): the chain of type probes that turns an
arbitrary payload into `sanitizedPaths`. The `try`/`catch` around
`Object.values` cannot fire on a value already known to be a truthy object,
so the embedding is total. -/
def handleMailDropStage1 (filePaths : JSVal) : List JSVal :=
  if isArray filePaths then
    arrElems filePaths
  else if truthy filePaths && (typeof filePaths == "string")
      && (jsTrim (strOf filePaths) != "") then
    [.str (jsTrim (strOf filePaths))]
  else if truthy filePaths && (typeof filePaths == "object")
      && truthy (getField filePaths "paths")
      && isArray (getField filePaths "paths") then
    arrElems (getField filePaths "paths")
  else if truthy filePaths && (typeof filePaths == "object") then
    (objectValues filePaths).filter isNonEmptyStr
  else
    []

/-- `fs.existsSync` lifted to a dynamic value: Node returns `false`
(rather than throwing) when handed a non-string path, since `existsSync`
swallows every error. `fsE` is the filesystem oracle on strings. -/
def fsExistsJS (fsE : String → Bool) : JSVal → Bool
  | .str s => fsE s
  | _ => false

/-- Second (validation) stage of `handleMailDrop`
(mail-drop-handler.js lines 48–54): keep the paths that exist. -/
def handleMailDropStage2 (fsE : String → Bool) (sanitizedPaths : List JSVal) :
    List JSVal :=
  sanitizedPaths.filter (fsExistsJS fsE)

/-- The whole of `handleMailDrop`: sanitize, then filter by existence. -/
def handleMailDrop (fsE : String → Bool) (filePaths : JSVal) : List JSVal :=
  handleMailDropStage2 fsE (handleMailDropStage1 filePaths)

/-- The first stage as the specification words it (C1): a case split on the
shape of the input — an array unchanged, a non-empty trimmed string as a
singleton, a `paths` array unwrapped, any other object reduced to its
non-empty string values, everything else empty. Stated independently of the
source's probe chain, to be compared with `handleMailDropStage1`. -/
def pathSanitizerSpecStage1 (v : JSVal) : List JSVal :=
  match v with
  | .arr xs => xs
  | .str s => if jsTrim s == "" then [] else [.str (jsTrim s)]
  | .obj fields =>
    match fields.lookup "paths" with
    | some (.arr xs) => xs
    | _ => (fields.map Prod.snd).filter isNonEmptyStr
  | _ => []

/-- C1: for every input value, the sanitization stage of `handleMailDrop`
returns exactly the ordered sequence the specification describes, and (being
a total function) never throws: arrays pass through unchanged, a non-empty
trimmed string becomes the singleton of its trimmed value, an object with an
array-valued `paths` field yields that array, any other object yields its
enumerable string-typed values that are non-empty after trimming, and every
other shape yields the empty sequence. -/
theorem handleMailDrop_stage1_spec (v : JSVal) :
    handleMailDropStage1 v = pathSanitizerSpecStage1 v := by
  cases v with
  | null => rfl
  | undefined => rfl
  | num n =>
    simp [handleMailDropStage1, pathSanitizerSpecStage1, truthy, typeof, isArray]
  | bool b =>
    simp [handleMailDropStage1, pathSanitizerSpecStage1, truthy, typeof, isArray]
  | str s =>
    by_cases h : jsTrim s = ""
    · have hs : (jsTrim s != "") = false := by simp [h]
      simp [handleMailDropStage1, pathSanitizerSpecStage1, truthy, typeof,
        isArray, strOf, h, hs]
    · have hs0 : s ≠ "" := by
        intro he
        apply h
        rw [he]
        decide
      simp [handleMailDropStage1, pathSanitizerSpecStage1, truthy, typeof,
        isArray, strOf, h, hs0]
  | arr xs => rfl
  | obj fields =>
    cases hl : fields.lookup "paths" with
    | none =>
      simp [handleMailDropStage1, pathSanitizerSpecStage1, truthy, typeof,
        isArray, getField, objectValues, hl]
    | some x =>
      cases x with
      | arr xs =>
        simp [handleMailDropStage1, pathSanitizerSpecStage1, truthy, typeof,
          isArray, getField, objectValues, arrElems, hl]
      | null =>
        simp [handleMailDropStage1, pathSanitizerSpecStage1, truthy, typeof,
          isArray, getField, objectValues, hl]
      | undefined =>
        simp [handleMailDropStage1, pathSanitizerSpecStage1, truthy, typeof,
          isArray, getField, objectValues, hl]
      | num n =>
        simp [handleMailDropStage1, pathSanitizerSpecStage1, truthy, typeof,
          isArray, getField, objectValues, hl]
      | bool b =>
        simp [handleMailDropStage1, pathSanitizerSpecStage1, truthy, typeof,
          isArray, getField, objectValues, hl]
      | str s =>
        simp [handleMailDropStage1, pathSanitizerSpecStage1, truthy, typeof,
          isArray, getField, objectValues, hl]
      | obj gs =>
        simp [handleMailDropStage1, pathSanitizerSpecStage1, truthy, typeof,
          isArray, getField, objectValues, hl]

/-- C2: the validation stage of `handleMailDrop`, applied to a sequence of
path strings, returns exactly the subsequence of existing paths: it equals
the order-preserving filter of the input by the existence oracle, it is a
sublist (hence relative order is preserved), and a path string is in the
result exactly when it was in the input and exists. -/
theorem handleMailDrop_stage2_filters_existing (fsE : String → Bool)
    (paths : List String) :
    handleMailDropStage2 fsE (paths.map JSVal.str)
        = (paths.filter fsE).map JSVal.str ∧
    (handleMailDropStage2 fsE (paths.map JSVal.str)).Sublist
        (paths.map JSVal.str) ∧
    ∀ s : String, JSVal.str s ∈ handleMailDropStage2 fsE (paths.map JSVal.str)
        ↔ (s ∈ paths ∧ fsE s = true) := by
  have heq : handleMailDropStage2 fsE (paths.map JSVal.str)
      = (paths.filter fsE).map JSVal.str := by
    induction paths with
    | nil => rfl
    | cons p ps ih =>
      by_cases h : fsE p = true
      · simp [handleMailDropStage2, fsExistsJS, h, List.filter_cons] at ih ⊢
        exact ih
      · simp [handleMailDropStage2, fsExistsJS, h, List.filter_cons] at ih ⊢
        exact ih
  refine ⟨heq, ?_, ?_⟩
  · exact List.filter_sublist (paths.map JSVal.str)
  · intro s
    rw [heq]
    constructor
    · intro hmem
      rcases List.mem_map.mp hmem with ⟨t, ht, hts⟩
      cases hts
      exact ⟨(List.mem_filter.mp ht).1, (List.mem_filter.mp ht).2⟩
    · intro ⟨hmem, hex⟩
      exact List.mem_map.mpr ⟨s, List.mem_filter.mpr ⟨hmem, hex⟩, rfl⟩

/-! ## `eml-parser.js`: `parseEmlFile` -/

/-- `path.basename(p)` for POSIX paths: the component after the last
separator. Defined on the character list so it evaluates in the kernel. -/
def basename (p : String) : String :=
  ⟨(p.data.reverse.takeWhile (fun c => c != '/')).reverse⟩

/-- `path.basename(p, '.eml')`: the base name with a trailing `.eml`
stripped when present. -/
def basenameEml (p : String) : String :=
  let b := basename p
  if b.data.reverse.take 4 = ['l', 'm', 'e', '.'] then
    ⟨b.data.take (b.data.length - 4)⟩
  else b

/-- A `ClassificationResult`: the `{type, name, confidence}` guess of the
newsletter detector. -/
structure NewsletterInfo where
  type : String
  name : String
  confidence : Int
deriving DecidableEq, Repr

/-- The generic fallback classification
`{type: 'generic', name: 'Newsletter', confidence: 0}`. -/
def genericDefault : NewsletterInfo :=
  { type := "generic", name := "Newsletter", confidence := 0 }

/-- Attachment records are opaque to all of the code under verification;
only their presence matters, so they are modelled as atoms. -/
structure Attachment where
  tag : String
deriving DecidableEq, Repr

/-- The value resolved by the external `mailparser.simpleParser`: every field
the wrapper reads, each optional because `mailparser` omits absent parts.
`fromText` is `parsed.from` with, inside, its `.text` property; `date` is
`parsed.date` already rendered by `toUTCString`. -/
structure ParsedMail where
  subject : Option String
  fromText : Option (Option String)
  text : Option String
  html : Option String
  date : Option String
  attachments : Option (List Attachment)

/-- JavaScript `v || d` on an optional string: the fallback is taken when
the value is absent or empty (falsy). -/
def jsOrStr (v : Option String) (d : String) : String :=
  match v with
  | some s => if s == "" then d else s
  | none => d

/-- A `ParsedEnvelope`. `attachments` is `Option`-valued because the
error-fallback object literal in the source has no `attachments` key:
`none` models the absent property, `some` the present array. -/
structure ParsedEnvelope where
  subject : String
  «from» : String
  text : String
  html : String
  date : String
  attachments : Option (List Attachment)
  newsletterInfo : NewsletterInfo
deriving DecidableEq, Repr

/-- Outcome of a call to `parseEmlFile`: either a JavaScript `throw`
escaping to the caller (promise rejection) or a resolved envelope. -/
inductive EmlResult where
  | thrown (msg : String)
  | parsed (envelope : ParsedEnvelope)
deriving DecidableEq, Repr

/-- The degraded envelope built in the `catch` block of `parseEmlFile`
(eml-parser.js lines 56–63). Note the object literal carries no
`attachments` property. -/
def errorEnvelope (emlFilePath msg now : String) : ParsedEnvelope :=
  { subject := basenameEml emlFilePath
    «from» := ""
    text := "Error parsing file: " ++ msg
    html := "<p>Error parsing file: " ++ msg ++ "</p>"
    date := now
    attachments := none
    newsletterInfo := genericDefault }

/-- The `result` object literal of the success path
(eml-parser.js lines 30–38): shape normalization of the parsed mail with
JavaScript `||` defaulting, before newsletter detection. -/
def successEnvelope (emlFilePath now : String) (parsed : ParsedMail) :
    ParsedEnvelope :=
  { subject := jsOrStr parsed.subject (basenameEml emlFilePath)
    «from» := match parsed.fromText with
      | some t => jsOrStr t ""
      | none => ""
    text := jsOrStr parsed.text ""
    html := jsOrStr parsed.html ""
    date := parsed.date.getD now
    attachments := some (parsed.attachments.getD [])
    newsletterInfo := genericDefault }

/-- The guarded detector invocation (eml-parser.js lines 41–49): if the
module is available and returns, its classification replaces
`newsletterInfo`; if it is missing or throws, the envelope is kept as is. -/
def applyDetector
    (detect : Option (ParsedEnvelope → Except String NewsletterInfo))
    (result : ParsedEnvelope) : ParsedEnvelope :=
  match detect with
  | none => result
  | some d =>
    match d result with
    | .error _ => result
    | .ok info => { result with newsletterInfo := info }

/-- `parseEmlFile` (eml-parser.js lines 12–65). Oracles: `fsE` is
`fs.existsSync`, `readFile` is `fs.readFileSync` (error = thrown read
exception, caught by the outer `try`), `sp` is `mailparser.simpleParser`
(error = rejection, likewise caught), `detect` is the optional
`newsletter-detector` module (`none` when `require` fails, error = the
detector throwing, caught by the inner `try`), `now` is
`new Date().toUTCString()`. -/
def parseEmlFile (fsE : String → Bool) (readFile : String → Except String String)
    (sp : String → Except String ParsedMail)
    (detect : Option (ParsedEnvelope → Except String NewsletterInfo))
    (now : String) (emlFilePath : String) : EmlResult :=
  if fsE emlFilePath = false then
    .thrown ("File not found: " ++ emlFilePath)
  else
    match readFile emlFilePath with
    | .error msg => .parsed (errorEnvelope emlFilePath msg now)
    | .ok emlContent =>
      match sp emlContent with
      | .error msg => .parsed (errorEnvelope emlFilePath msg now)
      | .ok parsed =>
        .parsed (applyDetector detect (successEnvelope emlFilePath now parsed))

/-- On an existing path, `parseEmlFile` resolves to an envelope: every
branch past the existence guard produces `.parsed`. -/
theorem parseEml_not_thrown_of_exists (fsE : String → Bool)
    (readFile : String → Except String String)
    (sp : String → Except String ParsedMail)
    (detect : Option (ParsedEnvelope → Except String NewsletterInfo))
    (now emlFilePath : String) (hex : fsE emlFilePath = true) :
    ∀ m, parseEmlFile fsE readFile sp detect now emlFilePath ≠ .thrown m := by
  intro m hcontra
  rw [parseEmlFile, hex] at hcontra
  simp only [Bool.true_eq_false, if_false] at hcontra
  cases hr : readFile emlFilePath with
  | error msg => rw [hr] at hcontra; exact EmlResult.noConfusion hcontra
  | ok c =>
    rw [hr] at hcontra
    simp only at hcontra
    cases hs : sp c with
    | error msg => rw [hs] at hcontra; exact EmlResult.noConfusion hcontra
    | ok parsed => rw [hs] at hcontra; exact EmlResult.noConfusion hcontra

/-- C3: on a path that exists, `parseEmlFile` never lets a parser-level
exception escape: a failing read or a failing parse yields the degraded
envelope, whose `text`/`html` spell out the error, whose `subject` is the
file's base name and whose `newsletterInfo` is the generic default; and a
thrown result is possible only for a path that does not exist at call
time. -/
theorem parseEmlFile_never_propagates (fsE : String → Bool)
    (readFile : String → Except String String)
    (sp : String → Except String ParsedMail)
    (detect : Option (ParsedEnvelope → Except String NewsletterInfo))
    (now emlFilePath : String) (hex : fsE emlFilePath = true) :
    (∀ m, parseEmlFile fsE readFile sp detect now emlFilePath ≠ .thrown m) ∧
    (∀ msg, readFile emlFilePath = .error msg →
      parseEmlFile fsE readFile sp detect now emlFilePath
        = .parsed (errorEnvelope emlFilePath msg now)) ∧
    (∀ c msg, readFile emlFilePath = .ok c → sp c = .error msg →
      parseEmlFile fsE readFile sp detect now emlFilePath
        = .parsed (errorEnvelope emlFilePath msg now)) ∧
    (∀ msg,
      (errorEnvelope emlFilePath msg now).text = "Error parsing file: " ++ msg
      ∧ (errorEnvelope emlFilePath msg now).html
          = "<p>Error parsing file: " ++ msg ++ "</p>"
      ∧ (errorEnvelope emlFilePath msg now).subject = basenameEml emlFilePath
      ∧ (errorEnvelope emlFilePath msg now).newsletterInfo = genericDefault) ∧
    (∀ q m, parseEmlFile fsE readFile sp detect now q = .thrown m →
      fsE q = false) := by
  refine ⟨parseEml_not_thrown_of_exists fsE readFile sp detect now emlFilePath
    hex, ?_, ?_, ?_, ?_⟩
  · intro msg hr
    rw [parseEmlFile, hex]
    simp only [Bool.true_eq_false, if_false, hr]
  · intro c msg hr hs
    rw [parseEmlFile, hex]
    simp only [Bool.true_eq_false, if_false, hr, hs]
  · intro msg
    exact ⟨rfl, rfl, rfl, rfl⟩
  · intro q m hth
    by_cases hq : fsE q = true
    · exact absurd hth (parseEml_not_thrown_of_exists fsE readFile sp
        detect now q hq m)
    · simpa using hq

/-- Witness for C3: with a filesystem on which every path exists but every
read fails, `parseEmlFile` resolves to the degraded envelope instead of
throwing. -/
theorem parseEmlFile_never_propagates_witness :
    parseEmlFile (fun _ => true) (fun _ => Except.error ("disk read failed"))
        (fun _ => Except.error ("parse failed")) none ("now") ("/tmp/a.eml")
      = EmlResult.parsed
          (errorEnvelope ("/tmp/a.eml") ("disk read failed") ("now")) :=
  (parseEmlFile_never_propagates (fun _ => true)
    (fun _ => Except.error ("disk read failed"))
    (fun _ => Except.error ("parse failed")) none ("now") ("/tmp/a.eml")
    rfl).2.1 ("disk read failed") rfl

/-- `applyDetector` never touches the `attachments` field. -/
theorem applyDetector_attachments
    (detect : Option (ParsedEnvelope → Except String NewsletterInfo))
    (r : ParsedEnvelope) :
    (applyDetector detect r).attachments = r.attachments := by
  cases detect with
  | none => rfl
  | some d =>
    simp only [applyDetector]
    cases hd : d r with
    | error e => rfl
    | ok info => rfl

/-- C7 is refuted at a concrete input: when the external parser rejects, the
envelope `parseEmlFile` resolves with is the fallback literal, and that
literal has no `attachments` property (modelled as `none`), so not every
envelope has the full documented seven-field shape. -/
theorem parseEmlFile_fallback_lacks_attachments :
    parseEmlFile (fun _ => true) (fun _ => Except.ok ("garbage"))
        (fun _ => Except.error ("mailparser choked")) none ("now")
        ("/tmp/x.eml")
      = EmlResult.parsed
          (errorEnvelope ("/tmp/x.eml") ("mailparser choked") ("now"))
    ∧ (errorEnvelope ("/tmp/x.eml") ("mailparser choked") ("now")).attachments
        = none :=
  ⟨rfl, rfl⟩

/-- C7 as amended: on an existing path `parseEmlFile` always resolves to a
(never-null) envelope carrying `subject`, `from`, `text`, `html`, `date` and
`newsletterInfo`; the `attachments` field is present exactly when both the
file read and the parse succeed — the error-fallback envelope omits it. -/
theorem parseEmlFile_envelope_shape (fsE : String → Bool)
    (readFile : String → Except String String)
    (sp : String → Except String ParsedMail)
    (detect : Option (ParsedEnvelope → Except String NewsletterInfo))
    (now emlFilePath : String) (hex : fsE emlFilePath = true) :
    ∃ e, parseEmlFile fsE readFile sp detect now emlFilePath
        = EmlResult.parsed e ∧
      (e.attachments.isSome = true ↔
        ∃ c m, readFile emlFilePath = Except.ok c ∧ sp c = Except.ok m) := by
  rw [parseEmlFile, hex]
  simp only [Bool.true_eq_false, if_false]
  cases hr : readFile emlFilePath with
  | error msg =>
    refine ⟨errorEnvelope emlFilePath msg now, rfl, ?_⟩
    simp [errorEnvelope]
  | ok c =>
    simp only
    cases hs : sp c with
    | error msg =>
      refine ⟨errorEnvelope emlFilePath msg now, rfl, ?_⟩
      simp only [errorEnvelope, Option.isSome_none, Bool.false_eq_true,
        false_iff]
      rintro ⟨c', m, hc, hm⟩
      cases hc
      rw [hs] at hm
      exact Except.noConfusion hm
    | ok parsed =>
      refine ⟨applyDetector detect (successEnvelope emlFilePath now parsed),
        rfl, ?_⟩
      rw [applyDetector_attachments]
      simp only [successEnvelope, Option.isSome_some, true_iff]
      exact ⟨c, parsed, rfl, hs⟩

/-- Witness for the amended C7: a successful read and parse produce an
envelope whose `attachments` field is present. -/
theorem parseEmlFile_envelope_shape_witness :
    (successEnvelope ("/tmp/b.eml") ("now")
        { subject := some ("Hi"), fromText := none, text := some ("body"),
          html := none, date := none, attachments := none }).attachments.isSome
      = true
    ∧ parseEmlFile (fun _ => true) (fun _ => Except.ok ("raw"))
        (fun _ => Except.ok
          { subject := some ("Hi"), fromText := none, text := some ("body"),
            html := none, date := none, attachments := none })
        none ("now") ("/tmp/b.eml")
      = EmlResult.parsed (successEnvelope ("/tmp/b.eml") ("now")
          { subject := some ("Hi"), fromText := none, text := some ("body"),
            html := none, date := none, attachments := none }) := by
  obtain ⟨e, he, hiff⟩ := parseEmlFile_envelope_shape (fun _ => true)
    (fun _ => Except.ok ("raw"))
    (fun _ => Except.ok
      { subject := some ("Hi"), fromText := none, text := some ("body"),
        html := none, date := none, attachments := none })
    none ("now") ("/tmp/b.eml") rfl
  have hev : parseEmlFile (fun _ => true) (fun _ => Except.ok ("raw"))
      (fun _ => Except.ok
        { subject := some ("Hi"), fromText := none, text := some ("body"),
          html := none, date := none, attachments := none })
      none ("now") ("/tmp/b.eml")
      = EmlResult.parsed (successEnvelope ("/tmp/b.eml") ("now")
          { subject := some ("Hi"), fromText := none, text := some ("body"),
            html := none, date := none, attachments := none }) := rfl
  refine ⟨?_, hev⟩
  have heq : e = successEnvelope ("/tmp/b.eml") ("now")
      { subject := some ("Hi"), fromText := none, text := some ("body"),
        html := none, date := none, attachments := none } := by
    rw [hev] at he
    exact ((EmlResult.parsed.injEq _ _).mp he).symm
  rw [← heq]
  exact hiff.mpr ⟨"raw",
    { subject := some ("Hi"), fromText := none, text := some ("body"),
      html := none, date := none, attachments := none }, rfl, rfl⟩

/-! ## `mail-drop-handler.js`: the `process-dropped-files` IPC listener -/

/-- The `ipcMain.on('process-dropped-files')` listener
(mail-drop-handler.js lines 114–146). Every control path sends exactly one
reply on `event.sender`, modelled as the returned pair
(event name, payload). -/
def processDroppedFiles (fsE : String → Bool) (data : JSVal) : String × JSVal :=
  if !truthy data || !truthy (getField data "paths") then
    ("error", .str "No valid files found for processing.")
  else
    let filePaths := getField data "paths"
    let pathsArray : List JSVal :=
      if isArray filePaths then arrElems filePaths
      else if typeof filePaths == "string" then [filePaths]
      else []
    if pathsArray.length = 0 then
      ("error", .str "No valid files found for processing.")
    else
      let validFiles := pathsArray.filter fun p =>
        truthy p && (typeof p == "string") && fsE (strOf p)
      if validFiles.length = 0 then
        ("error", .str "No valid files found for processing.")
      else
        ("file-dropped", .arr validFiles)

/-- C8's reply as the claim words it: normalize the `paths` field (an array
stands as is, a string becomes a singleton, anything else is empty — a
missing field included), keep the string entries naming existing files, and
reply `file-dropped` with them unless none remain, in which case reply the
single error message. Stated independently of the listener's early
returns, to be compared with `processDroppedFiles`. -/
def processDroppedFilesClaim (fsE : String → Bool) (data : JSVal) :
    String × JSVal :=
  let entries : List JSVal :=
    match getField data "paths" with
    | .arr xs => xs
    | .str s => [.str s]
    | _ => []
  let valid := entries.filter fun p =>
    match p with
    | .str s => fsE s
    | _ => false
  if valid.length = 0 then
    ("error", .str "No valid files found for processing.")
  else
    ("file-dropped", .arr valid)

/-- The listener's entry filter agrees with the claim's "string entry naming
an existing file" on every value, given that the empty string names no
existing file (as with Node's `existsSync`). -/
theorem processDroppedFiles_filter_agrees (fsE : String → Bool)
    (h0 : fsE "" = false) (p : JSVal) :
    (truthy p && (typeof p == "string") && fsE (strOf p))
      = (match p with | .str s => fsE s | _ => false) := by
  cases p with
  | str s =>
    by_cases hs : s = ""
    · subst hs
      simp [truthy, typeof, strOf, h0]
    · simp [truthy, typeof, strOf, hs]
  | null => simp [truthy, typeof, strOf]
  | undefined => simp [truthy, typeof, strOf]
  | num n => simp [truthy, typeof, strOf]
  | bool b => simp [truthy, typeof, strOf]
  | arr xs => simp [truthy, typeof, strOf]
  | obj fs => simp [truthy, typeof, strOf]

/-- C8: assuming the empty string names no existing file, the
`process-dropped-files` listener replies exactly as the claim describes:
one single reply per message — the fixed error message when the payload
lacks a usable `paths` field, when it normalizes to an empty sequence, or
when no entry is a string naming an existing file; otherwise `file-dropped`
with exactly the existing string entries in their original order. -/
theorem processDroppedFiles_matches_claim (fsE : String → Bool)
    (data : JSVal) (h0 : fsE "" = false) :
    processDroppedFiles fsE data = processDroppedFilesClaim fsE data := by
  have hfilter : ∀ xs : List JSVal,
      xs.filter (fun p => truthy p && (typeof p == "string") && fsE (strOf p))
        = xs.filter (fun p => match p with | .str s => fsE s | _ => false) := by
    intro xs
    exact List.filter_congr fun p _ => processDroppedFiles_filter_agrees fsE h0 p
  cases data with
  | null => rfl
  | undefined => rfl
  | num n =>
    simp [processDroppedFiles, processDroppedFilesClaim, truthy, typeof,
      getField]
  | bool b =>
    simp [processDroppedFiles, processDroppedFilesClaim, truthy, typeof,
      getField]
  | str s =>
    simp [processDroppedFiles, processDroppedFilesClaim, truthy, typeof,
      getField]
  | arr xs =>
    simp [processDroppedFiles, processDroppedFilesClaim, truthy, typeof,
      getField]
  | obj fields =>
    cases hl : fields.lookup "paths" with
    | none =>
      simp [processDroppedFiles, processDroppedFilesClaim, truthy, typeof,
        getField, hl]
    | some x =>
      cases x with
      | null =>
        simp [processDroppedFiles, processDroppedFilesClaim, truthy, typeof,
          getField, hl]
      | undefined =>
        simp [processDroppedFiles, processDroppedFilesClaim, truthy, typeof,
          getField, hl]
      | num n =>
        by_cases hn : n = 0
        · subst hn
          simp [processDroppedFiles, processDroppedFilesClaim, truthy, typeof,
            getField, isArray, hl]
        · simp [processDroppedFiles, processDroppedFilesClaim, truthy, typeof,
            getField, isArray, hl, hn]
      | bool b =>
        cases b <;>
          simp [processDroppedFiles, processDroppedFilesClaim, truthy, typeof,
            getField, isArray, hl]
      | str s =>
        by_cases hs : s = ""
        · subst hs
          simp [processDroppedFiles, processDroppedFilesClaim, truthy, typeof,
            getField, isArray, strOf, hl, h0]
        · by_cases hf : fsE s = false
          · simp [processDroppedFiles, processDroppedFilesClaim, truthy,
              typeof, getField, isArray, strOf, hl, hs, hf]
          · have hf' : fsE s = true := by simpa using hf
            simp [processDroppedFiles, processDroppedFilesClaim, truthy,
              typeof, getField, isArray, strOf, hl, hs, hf']
      | arr ys =>
        have h1 : truthy (JSVal.obj fields) = true := rfl
        have h2 : truthy (JSVal.arr ys) = true := rfl
        have h3 : isArray (JSVal.arr ys) = true := rfl
        simp only [processDroppedFiles, processDroppedFilesClaim, getField,
          hl, Option.getD_some, h1, h2, h3, arrElems, Bool.not_true,
          Bool.or_self, Bool.false_or, if_true, if_false, ite_false]
        rw [hfilter]
        cases ys with
        | nil => simp
        | cons y ys' =>
          simp only [List.length_cons, Nat.succ_ne_zero, if_false]
          by_cases hv : ((y :: ys').filter
              (fun p => match p with | .str s => fsE s | _ => false)).length = 0
          · simp [hv]
          · simp [hv]
      | obj gs =>
        simp [processDroppedFiles, processDroppedFilesClaim, truthy, typeof,
          getField, isArray, hl]

/-- Witness for C8: a payload mixing an existing path, a missing path and a
non-string entry gets exactly one `file-dropped` reply carrying only the
existing path. -/
theorem processDroppedFiles_matches_claim_witness :
    processDroppedFiles (fun s => s == "/tmp/a.eml")
        (JSVal.obj [("paths", JSVal.arr
          [JSVal.str ("/tmp/a.eml"), JSVal.str ("/missing.eml"),
           JSVal.num 3])])
      = processDroppedFilesClaim (fun s => s == "/tmp/a.eml")
        (JSVal.obj [("paths", JSVal.arr
          [JSVal.str ("/tmp/a.eml"), JSVal.str ("/missing.eml"),
           JSVal.num 3])])
    ∧ processDroppedFiles (fun s => s == "/tmp/a.eml")
        (JSVal.obj [("paths", JSVal.arr
          [JSVal.str ("/tmp/a.eml"), JSVal.str ("/missing.eml"),
           JSVal.num 3])])
      = ("file-dropped", JSVal.arr [JSVal.str ("/tmp/a.eml")]) :=
  ⟨processDroppedFiles_matches_claim (fun s => s == "/tmp/a.eml") _ rfl, rfl⟩

/-! ## `renderer.js`: UI controller state and event handlers -/

/-- JavaScript truthiness of an optional string property
(`result.filePath ? ... : ...`). -/
def jsTruthyOpt (o : Option String) : Bool :=
  match o with
  | some s => s != ""
  | none => false

/-- `v || null` on an optional string (`selectedTemplate || null`). -/
def jsOrNull (t : Option String) : Option String :=
  match t with
  | some x => if x == "" then none else some x
  | none => none

/-- A `PipelineResult`: the payload of the `ebook-generated` event, each
field optional because the backend may omit it. -/
structure PipelineResult where
  success : Bool
  filePath : Option String
  format : Option String
  formatName : Option String
  additionalFiles : Option (List String)
  preview : Option ParsedEnvelope
  error : Option String
deriving DecidableEq, Repr

/-- The contents of the preview panel (`previewPanel.innerHTML`), abstracted
to which template of renderer.js filled it last. -/
inductive PreviewPane where
  | placeholder
  | filesReady (files : List String)
  | successPanel (r : PipelineResult)
  | errorPanel (r : PipelineResult)
  | contentPanel (d : ParsedEnvelope)
deriving DecidableEq, Repr

/-- A message the renderer sends to the backend. Only the
`process-dropped-files` request matters to the verified claims. -/
inductive IpcMessage where
  | processDropped (paths : List String) (formatPreference : String)
      (selectedTemplate : Option String)
deriving DecidableEq, Repr

/-- The renderer's observable state: the module-level variables of
renderer.js lines 33–41 plus the DOM state the handlers mutate (drop-zone
classes, button enabled flags, progress bar, status line, preview panel).
`progressValue` is the `progress` variable captured by the
`startProgressAnimation` interval closure; `progressIntervalActive` is
`progressInterval !== null`. -/
structure RendererState where
  uploadedFiles : List String
  generatedFilePath : Option String
  additionalGeneratedFiles : List String
  generatedFileFormat : String
  isProcessing : Bool
  detectedNewsletterInfo : Option NewsletterInfo
  selectedTemplate : Option String
  selectedFormat : String
  progressIntervalActive : Bool
  progressValue : ℚ
  displayedPercentage : Int
  displayedStatus : String
  statusMessage : String
  dropProcessing : Bool
  dropProcessed : Bool
  dropDragOver : Bool
  generateEnabled : Bool
  openFileEnabled : Bool
  showInFolderEnabled : Bool
  sendToKindleEnabled : Bool
  preview : PreviewPane
deriving DecidableEq, Repr

/-- The documented initial state: the initial values of renderer.js
lines 33–41 (files empty, nothing generated, format `epub`/`auto`, not
processing, no timer) together with the initial DOM (no drop-zone state
classes, action buttons disabled, placeholder preview). -/
def initialState : RendererState :=
  { uploadedFiles := []
    generatedFilePath := none
    additionalGeneratedFiles := []
    generatedFileFormat := "epub"
    isProcessing := false
    detectedNewsletterInfo := none
    selectedTemplate := none
    selectedFormat := "auto"
    progressIntervalActive := false
    progressValue := 0
    displayedPercentage := 0
    displayedStatus := ""
    statusMessage := ""
    dropProcessing := false
    dropProcessed := false
    dropDragOver := false
    generateEnabled := false
    openFileEnabled := false
    showInFolderEnabled := false
    sendToKindleEnabled := false
    preview := PreviewPane.placeholder }

/-- `updateProgressDisplay(percentage, status)` (renderer.js lines 612–641):
write the percentage and status to the progress widgets, and — whenever the
percentage is below 100 — re-add the `processing` drop-zone class and set
`isProcessing = true`. -/
def updateProgressDisplay (percentage : Int) (status : String)
    (s : RendererState) : RendererState :=
  let s1 := { s with
    displayedPercentage := percentage,
    displayedStatus := status }
  if percentage < 100 then
    { s1 with dropProcessing := true, isProcessing := true }
  else
    s1

/-- The `ipc.on('progress-update')` listener (renderer.js lines 194–197):
forward the backend payload verbatim to `updateProgressDisplay`; no message
is sent. -/
def progressUpdateEvent (percentage : Int) (status : String)
    (s : RendererState) : RendererState × List IpcMessage :=
  (updateProgressDisplay percentage status s, [])

/-- `processSelectedFiles()` (renderer.js lines 365–392): guard on a
non-empty file list, flip to the processing state, send the
`process-dropped-files` request and start the progress animation (timer on,
closure progress 0, bar at 0%). The DOM re-query fallback for the format is
folded into the final `'auto'` default. -/
def processSelectedFiles (s : RendererState) : RendererState × List IpcMessage :=
  if s.uploadedFiles.length = 0 then
    ({ s with statusMessage := "No files to process" }, [])
  else
    let formatPreference := jsOrStr (some s.selectedFormat) "auto"
    let msg := IpcMessage.processDropped s.uploadedFiles formatPreference
      s.selectedTemplate
    ({ s with
        isProcessing := true,
        dropProcessing := true,
        generateEnabled := false,
        statusMessage := "Processing " ++ toString s.uploadedFiles.length ++ " file(s)...",
        progressValue := 0,
        progressIntervalActive := true,
        displayedPercentage := 0 }, [msg])

/-- The generate-button click listener (renderer.js lines 234–240): only a
non-empty file list with `isProcessing` false reaches
`processSelectedFiles`. -/
def generateClicked (s : RendererState) : RendererState × List IpcMessage :=
  if 0 < s.uploadedFiles.length ∧ s.isProcessing = false then
    processSelectedFiles s
  else
    (s, [])

/-- One entry of the dropped-file list as `handleFileDrop` probes it: a file
object with a (possibly empty) `path` property, a plain string, or anything
else (objects without a usable path contribute nothing). -/
inductive DroppedFile where
  | pathProp (path : String)
  | strVal (s : String)
  | other
deriving DecidableEq, Repr

/-- The path-extraction loop of `handleFileDrop` (renderer.js lines
461–491): push `file.path` when truthy, push a plain string as is, skip the
rest. -/
def extractPaths : List DroppedFile → List String
  | [] => []
  | .pathProp p :: rest =>
    if p == "" then extractPaths rest else p :: extractPaths rest
  | .strVal s :: rest => s :: extractPaths rest
  | .other :: rest => extractPaths rest

/-- `handleFileDrop(files)` (renderer.js lines 451–519): extract the paths,
and — with no `isProcessing` guard — store them, send a
`process-dropped-files` request, flip to the processing state and start the
progress animation. -/
def handleFileDrop (files : List DroppedFile) (s : RendererState) :
    RendererState × List IpcMessage :=
  if files.length = 0 then
    ({ s with statusMessage := "No files to process" }, [])
  else
    let filePaths := extractPaths files
    if filePaths.length = 0 then
      ({ s with statusMessage :=
          "No valid file paths found. Try using the file picker button instead." },
        [])
    else
      let msg := IpcMessage.processDropped filePaths
        (jsOrStr (some s.selectedFormat) "auto") (jsOrNull s.selectedTemplate)
      ({ s with
          uploadedFiles := filePaths,
          dropProcessing := true,
          isProcessing := true,
          generateEnabled := false,
          statusMessage := "Processing " ++ toString filePaths.length ++ " file(s)...",
          progressValue := 0,
          progressIntervalActive := true,
          displayedPercentage := 0 }, [msg])

/-- The `ipc.on('ebook-generated')` listener (renderer.js lines 71–168):
clear the processing flag and timer, force the display to 100, then render
either the success panel (buttons enabled, optional content preview,
`processed` class) or the error/retry panel (buttons enabled only when a
partial file path is present). The success status line reads the base name
of `result.filePath`; the model defaults an absent path to `""` there. The
deferred `updatePreviewWithContent` timeout is applied in place. No message
is sent back. -/
def ebookGenerated (result : PipelineResult) (s : RendererState) :
    RendererState × List IpcMessage :=
  let s1 := { s with
    isProcessing := false,
    dropProcessing := false,
    progressIntervalActive := false }
  let s2 := updateProgressDisplay 100
    (if result.success then "Complete" else "Failed") s1
  let s3 :=
    if result.success then
      let fmt := jsOrStr result.format "epub"
      let formatName := jsOrStr result.formatName fmt.toUpper
      let s3a := { s2 with
        generatedFilePath := result.filePath,
        generatedFileFormat := fmt,
        additionalGeneratedFiles := result.additionalFiles.getD [],
        statusMessage := formatName ++ " created successfully: " ++ basename (result.filePath.getD ""),
        openFileEnabled := true,
        showInFolderEnabled := true,
        sendToKindleEnabled := true,
        preview := PreviewPane.successPanel result }
      let s3b :=
        match result.preview with
        | some d => { s3a with preview := PreviewPane.contentPanel d }
        | none => s3a
      { s3b with dropProcessed := true }
    else
      let errorMessage := jsOrStr result.error "Unknown error occurred"
      let s3a := { s2 with
        statusMessage := "Ebook generation had issues: " ++ errorMessage,
        preview := PreviewPane.errorPanel result }
      if jsTruthyOpt result.filePath then
        { s3a with
          generatedFilePath := result.filePath,
          generatedFileFormat := "epub",
          openFileEnabled := true,
          showInFolderEnabled := true,
          sendToKindleEnabled := true }
      else
        s3a
  ({ s3 with generateEnabled := decide (0 < s3.uploadedFiles.length) }, [])

/-- The `ipc.on('error')` listener (renderer.js lines 199–201): only a
status message — no state flag, in particular not `isProcessing`, is
touched, and no message is sent. -/
def errorEvent (message : String) (s : RendererState) :
    RendererState × List IpcMessage :=
  ({ s with statusMessage := "Error: " ++ message }, [])

/-- `clearContent()` (renderer.js lines 974–1012) with its default
`updateUI = true`: empty the file list, drop every result and detection,
reset `isProcessing`, cancel the timer, strip the drop-zone classes,
restore the placeholder preview and disable every action button. The
`selectedFormat`, `generatedFileFormat` and progress-bar values are not
touched by the source and so are left unchanged. -/
def clearContent (s : RendererState) : RendererState :=
  { s with
    uploadedFiles := []
    generatedFilePath := none
    additionalGeneratedFiles := []
    detectedNewsletterInfo := none
    selectedTemplate := none
    isProcessing := false
    progressIntervalActive := false
    dropProcessing := false
    dropProcessed := false
    dropDragOver := false
    preview := PreviewPane.placeholder
    statusMessage := "Ready"
    openFileEnabled := false
    showInFolderEnabled := false
    sendToKindleEnabled := false
    generateEnabled := false }

/-- The format radio `change` listener (renderer.js lines 243–255): store
the checked value (defaulting to `'auto'`) and re-enable generation when
files are present. -/
def formatChanged (checkedValue : Option String) (s : RendererState) :
    RendererState :=
  let s1 := { s with selectedFormat := jsOrStr checkedValue "auto" }
  if 0 < s1.uploadedFiles.length then
    { s1 with generateEnabled := true }
  else
    s1

/-! ## `renderer.js`: the synthetic progress animation -/

/-- The per-tick increment of `startProgressAnimation`
(renderer.js lines 918–927): 0.5 by default, 0.3 strictly between 30
and 60, 0.2 from 60 below 80, 0.1 from 80 up. -/
def progressIncrement (progress : ℚ) : ℚ :=
  if 30 < progress ∧ progress < 60 then 0.3
  else if 60 ≤ progress ∧ progress < 80 then 0.2
  else if 80 ≤ progress then 0.1
  else 0.5

/-- JavaScript `Math.round` on an exact rational: floor of `q + 1/2`. -/
def jsRound (q : ℚ) : Int :=
  Int.floor (q + 1 / 2)

/-- `getStatusForProgress(progress)` (renderer.js lines 958–971). -/
def getStatusForProgress (progress : ℚ) : String :=
  if progress < 20 then "Initializing..."
  else if 20 ≤ progress ∧ progress < 40 then "Parsing email content..."
  else if 40 ≤ progress ∧ progress < 60 then "Formatting content for e-reader..."
  else if 60 ≤ progress ∧ progress < 80 then "Generating ebook files..."
  else if 80 ≤ progress then "Finalizing your ebook..."
  else "Processing..."

/-- One firing of the `setInterval` callback of `startProgressAnimation`
(renderer.js lines 905–940): self-cancel when processing has stopped;
otherwise add the increment when at least 100ms have elapsed
(`enoughTime`), cap at 95 and render the rounded value through
`updateProgressDisplay`. -/
def timerFire (enoughTime : Bool) (s : RendererState) : RendererState :=
  if s.isProcessing = false then
    { s with progressIntervalActive := false }
  else
    let progress1 :=
      if enoughTime then s.progressValue + progressIncrement s.progressValue
      else s.progressValue
    let progress2 := min progress1 95
    updateProgressDisplay (jsRound progress2) (getStatusForProgress progress2)
      { s with progressValue := progress2 }

/-! ## Helper lemmas about the renderer handlers -/

/-- `updateProgressDisplay` never changes the timer closure's progress
variable. -/
theorem updateProgressDisplay_keeps_progressValue (pct : Int) (st : String)
    (s : RendererState) :
    (updateProgressDisplay pct st s).progressValue = s.progressValue := by
  rw [updateProgressDisplay]
  split_ifs <;> rfl

/-- `updateProgressDisplay` always writes its percentage to the display. -/
theorem updateProgressDisplay_displayed (pct : Int) (st : String)
    (s : RendererState) :
    (updateProgressDisplay pct st s).displayedPercentage = pct := by
  rw [updateProgressDisplay]
  split_ifs <;> rfl

/-- Every branch of the per-tick increment is strictly positive. -/
theorem progressIncrement_pos (p : ℚ) : 0 < progressIncrement p := by
  rw [progressIncrement]
  split_ifs <;> norm_num

/-- While processing, a timer firing sets the progress variable to the
capped, possibly incremented value. -/
theorem timerFire_progressValue (b : Bool) (s : RendererState)
    (hp : s.isProcessing = true) :
    (timerFire b s).progressValue
      = min (if b then s.progressValue + progressIncrement s.progressValue
             else s.progressValue) 95 := by
  rw [timerFire, hp]
  simp only [Bool.true_eq_false, if_false]
  rw [updateProgressDisplay_keeps_progressValue]

/-- While processing, a timer firing displays the rounded capped value. -/
theorem timerFire_displayed (b : Bool) (s : RendererState)
    (hp : s.isProcessing = true) :
    (timerFire b s).displayedPercentage
      = jsRound (min (if b then
          s.progressValue + progressIncrement s.progressValue
        else s.progressValue) 95) := by
  rw [timerFire, hp]
  simp only [Bool.true_eq_false, if_false]
  rw [updateProgressDisplay_displayed]

/-- Rounding in the JavaScript sense cannot push a value at most 95 above
95. -/
theorem jsRound_le_95 (q : ℚ) (h : q ≤ 95) : jsRound q ≤ 95 := by
  rw [jsRound]
  have h1 : q + 1 / 2 ≤ (95.5 : ℚ) := by linarith
  have h2 : Int.floor (95.5 : ℚ) = 95 := by
    rw [Int.floor_eq_iff]; norm_num
  calc Int.floor (q + 1 / 2) ≤ Int.floor (95.5 : ℚ) := Int.floor_le_floor h1
    _ = 95 := h2

/-- The completion handler always shows exactly 100, whatever the result
reports. -/
theorem ebookGenerated_forces_100 (r : PipelineResult) (s : RendererState) :
    (ebookGenerated r s).1.displayedPercentage = 100 := by
  rw [ebookGenerated, updateProgressDisplay]
  cases hs : r.success <;> cases hp : r.preview <;>
    simp [hs, hp] <;> split_ifs <;> rfl

/-- The completion handler always leaves `isProcessing` false. -/
theorem ebookGenerated_resets_isProcessing (r : PipelineResult)
    (s : RendererState) :
    (ebookGenerated r s).1.isProcessing = false := by
  rw [ebookGenerated, updateProgressDisplay]
  cases hs : r.success <;> cases hp : r.preview <;>
    simp [hs, hp] <;> split_ifs <;> rfl

/-! ## Claims about the progress/status state machine -/

/-- A renderer state mid-conversion: the initial state with the processing
flag and the animation timer on. -/
def procState : RendererState :=
  { initialState with isProcessing := true, progressIntervalActive := true }

/-- A mid-conversion state whose animation has reached 10%. -/
def procState10 : RendererState :=
  { initialState with
      isProcessing := true,
      progressIntervalActive := true,
      progressValue := 10 }

/-- An `ebook-generated` payload reporting failure with no partial file. -/
def failureResult : PipelineResult :=
  { success := false, filePath := none, format := none, formatName := none,
    additionalFiles := none, preview := none, error := none }

/-- C4 is refuted at a concrete input: in a processing state with no
completion event yet, a backend `progress-update` event writes its payload
verbatim, first showing 99 (above the 95 clamp) and then 20 (a decrease),
while `isProcessing` stays true throughout. -/
theorem progress_overwrite_counterexample :
    procState.isProcessing = true
    ∧ (progressUpdateEvent 99 ("Almost done")
        procState).1.displayedPercentage = 99
    ∧ (progressUpdateEvent 99 ("Almost done")
        procState).1.isProcessing = true
    ∧ (progressUpdateEvent 20 ("Rewinding")
        (progressUpdateEvent 99 ("Almost done")
          procState).1).1.displayedPercentage = 20
    ∧ ((95 : Int) < 99) ∧ ((20 : Int) < 99) :=
  ⟨rfl, rfl, rfl, rfl, by norm_num, by norm_num⟩

/-- C4 as amended: while `isProcessing` is true the synthetic timer's own
updates are monotonically non-decreasing and clamped to at most 95 (both on
the closure's value and on the rounded display), and the completion event
forces the display to exactly 100 whether or not the result reports
success; backend `progress-update` events, however, overwrite the display
verbatim and are bound by neither the clamp nor monotonicity. -/
theorem progress_monotone_capped (s : RendererState) (b : Bool)
    (r : PipelineResult) (hp : s.isProcessing = true)
    (h95 : s.progressValue ≤ 95) :
    s.progressValue ≤ (timerFire b s).progressValue
    ∧ (timerFire b s).progressValue ≤ 95
    ∧ (timerFire b s).displayedPercentage ≤ 95
    ∧ (ebookGenerated r s).1.displayedPercentage = 100 := by
  refine ⟨?_, ?_, ?_, ebookGenerated_forces_100 r s⟩
  · rw [timerFire_progressValue b s hp]
    cases b
    · simp only [Bool.false_eq_true, if_false]
      exact le_min le_rfl h95
    · simp only [if_true]
      exact le_min
        (le_add_of_nonneg_right (le_of_lt (progressIncrement_pos _))) h95
  · rw [timerFire_progressValue b s hp]
    exact min_le_right _ _
  · rw [timerFire_displayed b s hp]
    exact jsRound_le_95 _ (min_le_right _ _)

/-- Witness for the amended C4: from a fresh processing state, one timer
tick keeps the progress between its old value and 95, and a failing
completion still displays 100. -/
theorem progress_monotone_capped_witness :
    procState.progressValue ≤ (timerFire true procState).progressValue
    ∧ (timerFire true procState).progressValue ≤ 95
    ∧ (ebookGenerated failureResult procState).1.displayedPercentage = 100 := by
  obtain ⟨h1, h2, h3, h4⟩ := progress_monotone_capped procState true
    failureResult rfl (by norm_num [procState, initialState])
  exact ⟨h1, h2, h4⟩

/-- C9: the synthetic timer's per-tick step is 0.5 up to 30, 0.3 strictly
between 30 and 60, 0.2 from 60 below 80 and 0.1 from 80 on; a tick with
enough elapsed time adds the step and caps the value at 95, and only the
real completion event sets the display to 100. -/
theorem progress_step_sizes (p : ℚ) :
    (p ≤ 30 → progressIncrement p = 0.5)
    ∧ (30 < p → p < 60 → progressIncrement p = 0.3)
    ∧ (60 ≤ p → p < 80 → progressIncrement p = 0.2)
    ∧ (80 ≤ p → progressIncrement p = 0.1)
    ∧ (∀ s : RendererState, s.isProcessing = true → s.progressValue = p →
        (timerFire true s).progressValue = min (p + progressIncrement p) 95)
    ∧ (∀ s : RendererState, s.isProcessing = true →
        (timerFire true s).progressValue ≤ 95)
    ∧ (∀ s : RendererState, ∀ r : PipelineResult,
        (ebookGenerated r s).1.displayedPercentage = 100) := by
  refine ⟨?_, ?_, ?_, ?_, ?_, ?_, ?_⟩
  · intro h
    rw [progressIncrement]
    split_ifs with h1 h2 h3
    · exfalso; linarith [h1.1]
    · exfalso; linarith [h2.1]
    · exfalso; linarith
    · rfl
  · intro h30 h60
    rw [progressIncrement]
    split_ifs with h1 h2 h3
    · rfl
    all_goals exact absurd ⟨h30, h60⟩ h1
  · intro h60 h80
    rw [progressIncrement]
    split_ifs with h1 h2 h3
    · exfalso; linarith [h1.2]
    · rfl
    all_goals exact absurd ⟨h60, h80⟩ h2
  · intro h80
    rw [progressIncrement]
    split_ifs with h1 h2
    · exfalso; linarith [h1.2]
    · exfalso; linarith [h2.2]
    · rfl
  · intro s hp hv
    rw [timerFire_progressValue true s hp, if_pos rfl, hv]
  · intro s hp
    rw [timerFire_progressValue true s hp]
    exact min_le_right _ _
  · intro s r
    exact ebookGenerated_forces_100 r s

/-- Witness for C9: the four step sizes at 10, 45, 70 and 90, and the
capped increment of one tick from a processing state at 10%. -/
theorem progress_step_sizes_witness :
    progressIncrement 10 = 0.5
    ∧ progressIncrement 45 = 0.3
    ∧ progressIncrement 70 = 0.2
    ∧ progressIncrement 90 = 0.1
    ∧ (timerFire true procState10).progressValue
      = min (10 + progressIncrement 10) 95 :=
  ⟨(progress_step_sizes (10 : ℚ)).1 (by norm_num),
    (progress_step_sizes (45 : ℚ)).2.1 (by norm_num) (by norm_num),
    (progress_step_sizes (70 : ℚ)).2.2.1 (by norm_num) (by norm_num),
    (progress_step_sizes (90 : ℚ)).2.2.2.1 (by norm_num),
    (progress_step_sizes (10 : ℚ)).2.2.2.2.1 procState10 rfl rfl⟩

/-- C5 is refuted at a concrete input: with `isProcessing` true, dropping a
file still dispatches a `process-dropped-files` request (no guard in
`handleFileDrop`), and the `error` event leaves `isProcessing` true, so it
does not permit-or-reset anything. -/
theorem second_request_while_processing :
    procState.isProcessing = true
    ∧ (handleFileDrop [DroppedFile.pathProp ("/tmp/a.eml")] procState).2
      = [IpcMessage.processDropped ["/tmp/a.eml"] ("auto") none]
    ∧ (errorEvent ("backend failed") procState).1.isProcessing = true :=
  ⟨rfl, rfl, rfl⟩

/-- C5 as amended: the generate action itself is guarded — while
`isProcessing` is true a click neither changes state nor dispatches a
request — and the flag is reset by the `ebook-generated` completion event
(and by the clear action), but not by the `error` event, which only writes
a status message; a drop, by contrast, can dispatch even while
processing. -/
theorem single_conversion_guard (s : RendererState) (m : String)
    (r : PipelineResult) (hp : s.isProcessing = true) :
    generateClicked s = (s, [])
    ∧ (errorEvent m s).1.isProcessing = true
    ∧ (errorEvent m s).2 = []
    ∧ (ebookGenerated r s).1.isProcessing = false
    ∧ (ebookGenerated r s).2 = []
    ∧ (clearContent s).isProcessing = false := by
  have hcond : ¬(0 < s.uploadedFiles.length ∧ s.isProcessing = false) := by
    rintro ⟨h1, h2⟩
    rw [hp] at h2
    exact absurd h2 (by decide)
  refine ⟨?_, hp, rfl, ebookGenerated_resets_isProcessing r s, rfl, rfl⟩
  rw [generateClicked, if_neg hcond]

/-- Witness for the amended C5: in a concrete processing state a generate
click is inert and the completion event clears the flag. -/
theorem single_conversion_guard_witness :
    generateClicked procState = (procState, [])
    ∧ (ebookGenerated failureResult procState).1.isProcessing = false := by
  obtain ⟨h1, h2, h3, h4, h5, h6⟩ := single_conversion_guard procState
    ("backend failed") failureResult rfl
  exact ⟨h1, h4⟩

/-- C6 is refuted at a concrete input: after the user switches the output
format to `mobi`, invoking clear leaves `selectedFormat` at `mobi` — the
clear action never resets the selected output format to its documented
initial value `auto`. -/
theorem clear_keeps_format_counterexample :
    initialState.selectedFormat = "auto"
    ∧ (formatChanged (some ("mobi")) initialState).selectedFormat = "mobi"
    ∧ (clearContent (formatChanged (some ("mobi"))
        initialState)).selectedFormat = "mobi"
    ∧ (("mobi" : String) == "auto") = false :=
  ⟨rfl, rfl, rfl, rfl⟩

/-- C6 as amended: invoking clear in any state empties the file list,
clears the processing flag, the generated artifacts, the detection and the
template, cancels the timer, strips the drop-zone state classes, restores
the placeholder preview, disables every action button — but leaves the
selected output format (and the remembered generated-file format)
untouched. -/
theorem clearContent_resets (s : RendererState) :
    (clearContent s).uploadedFiles = []
    ∧ (clearContent s).isProcessing = false
    ∧ (clearContent s).generatedFilePath = none
    ∧ (clearContent s).additionalGeneratedFiles = []
    ∧ (clearContent s).detectedNewsletterInfo = none
    ∧ (clearContent s).selectedTemplate = none
    ∧ (clearContent s).progressIntervalActive = false
    ∧ (clearContent s).dropProcessing = false
    ∧ (clearContent s).dropProcessed = false
    ∧ (clearContent s).dropDragOver = false
    ∧ (clearContent s).preview = PreviewPane.placeholder
    ∧ (clearContent s).statusMessage = "Ready"
    ∧ (clearContent s).generateEnabled = false
    ∧ (clearContent s).openFileEnabled = false
    ∧ (clearContent s).showInFolderEnabled = false
    ∧ (clearContent s).sendToKindleEnabled = false
    ∧ (clearContent s).selectedFormat = s.selectedFormat
    ∧ (clearContent s).generatedFileFormat = s.generatedFileFormat :=
  ⟨rfl, rfl, rfl, rfl, rfl, rfl, rfl, rfl, rfl, rfl, rfl, rfl, rfl, rfl, rfl,
    rfl, rfl, rfl⟩

/-- C10: every `updateProgressDisplay` call below 100 — the
`progress-update` listener forwards backend payloads to it verbatim — sets
`isProcessing` back to true and re-adds the `processing` drop-zone class,
while dispatching no request; so a stale update after completion re-enters
the processing state. -/
theorem progressUpdate_reenters_processing (pct : Int) (st : String)
    (s : RendererState) (h : pct < 100) :
    (progressUpdateEvent pct st s).1.isProcessing = true
    ∧ (progressUpdateEvent pct st s).1.dropProcessing = true
    ∧ (progressUpdateEvent pct st s).1.displayedPercentage = pct
    ∧ (progressUpdateEvent pct st s).2 = [] := by
  refine ⟨?_, ?_, updateProgressDisplay_displayed pct st s, rfl⟩
  · simp [progressUpdateEvent, updateProgressDisplay, h]
  · simp [progressUpdateEvent, updateProgressDisplay, h]

/-- Witness for C10: a stale 42% update arriving in the completed (idle)
initial state flips `isProcessing` back on without dispatching anything. -/
theorem progressUpdate_reenters_processing_witness :
    initialState.isProcessing = false
    ∧ (progressUpdateEvent 42 ("stale update")
        initialState).1.isProcessing = true
    ∧ (progressUpdateEvent 42 ("stale update") initialState).2 = [] :=
  ⟨rfl,
    (progressUpdate_reenters_processing 42 ("stale update") initialState
      (by norm_num)).1,
    (progressUpdate_reenters_processing 42 ("stale update") initialState
      (by norm_num)).2.2.2⟩
